import Mathlib

/-!
Verification development for the weston kiosk-shell window/output/seat
coordination core (src/kiosk-shell/kiosk-shell.c).

Strings are modelled as `List Char`, outputs and surfaces by natural-number
identifiers, and the C structs by Lean structures.  Each definition is a
direct translation of the corresponding C function; external collaborators
(the compositor's focused output, the default output, output dimensions)
are supplied through an environment record.
-/

namespace KioskShell

/-! ## Affinity-list matching (kiosk_shell_output_has_app_id) -/

/--
Translation of `kiosk_shell_output_has_app_id`.  The C function runs
`strstr` repeatedly, visiting every occurrence of `app_id` inside
`app_ids` in increasing position order, and returns true as soon as an
occurrence is bounded on the right by `,` or the string end
(`cur[app_id_len] == ',' || cur[app_id_len] == '\0'`) and on the left by
the string start or a `,` (`cur == shoutput->app_ids || cur[-1] == ','`).
A `NULL` affinity list (`Option.none`) never matches.
-/
def kiosk_shell_output_has_app_id (app_ids : Option (List Char)) (app_id : List Char) :
    Bool :=
  match app_ids with
  | none => false
  | some s =>
    (List.range (s.length + 1)).any fun i =>
      app_id.isPrefixOf (s.drop i) &&
      (s[i + app_id.length]? = some ',' || s[i + app_id.length]? = none : Bool) &&
      (i = 0 || s[i - 1]? = some ',' : Bool)

/--
The specification's matching rule, written from the spec's words: the app
id occurs in the comma-separated list as a complete token, i.e. bounded on
the left by the start of the string or a comma and on the right by a comma
or the end of the string.
-/
def specCompleteTokenMatch (s app_id : List Char) : Prop :=
  ∃ pre post, s = pre ++ app_id ++ post ∧
    (pre = [] ∨ pre.getLast? = some ',') ∧
    (post = [] ∨ post.head? = some ',')

/-! ## Parent chains and shell outputs -/

/-- A parent chain of window side records: each node carries the record's
identity and its `output` field; `root` is a record whose `parent` is NULL. -/
inductive Chain where
  | root (cid : Nat) (out : Option Nat)
  | child (cid : Nat) (out : Option Nat) (parent : Chain)
deriving DecidableEq, Repr

/-- Identity of the record itself (the head of the chain). -/
def Chain.cid : Chain → Nat
  | .root i _ => i
  | .child i _ _ => i

/-- `kiosk_shell_surface_get_parent_root`, walking `parent` pointers:
identity of the root ancestor. -/
def Chain.rootId : Chain → Nat
  | .root i _ => i
  | .child _ _ p => p.rootId

/-- The `output` field of the root ancestor. -/
def Chain.rootOut : Chain → Option Nat
  | .root _ o => o
  | .child _ _ p => p.rootOut

/-- A `kiosk_shell_output`: the weston output it wraps and its configured
affinity list (`app_ids`, NULL when the configuration had none). -/
structure ShellOutput where
  out : Nat
  app_ids : Option (List Char)
deriving DecidableEq, Repr

/-- Environment supplied by the compositor: the shell's registered output
list (in registration order), the output currently holding input focus
(`get_focused_output`), the default output (`get_default_output`), and each
output's dimensions. -/
structure ShellEnv where
  output_list : List ShellOutput
  focused_output : Option Nat
  default_output : Option Nat
  dims : Nat → Nat × Nat

/-! ## find_best_output -/

/--
Translation of `kiosk_shell_surface_find_best_output`, following the C
control flow of early returns: current output; first registered output
whose affinity list has the app id (skipped when the app id is NULL); the
root ancestor's output; the focused output; the default output; NULL.
-/
def kiosk_shell_surface_find_best_output (appId : Option (List Char))
    (output : Option Nat) (parent : Option Chain) (env : ShellEnv) : Option Nat :=
  match output with
  | some o => some o
  | none =>
    match (match appId with
           | some a => env.output_list.find? fun so =>
               kiosk_shell_output_has_app_id so.app_ids a
           | none => none : Option ShellOutput) with
    | some so => some so.out
    | none =>
      match (match parent with
             | none => output
             | some c => c.rootOut) with
      | some o => some o
      | none =>
        match env.focused_output with
        | some o => some o
        | none =>
          match env.default_output with
          | some o => some o
          | none => none

/-- Spec step 2, from the spec's words: "the output of the first registered
output whose affinity list contains the window's application identifier". -/
def specAffinityOutput (appId : Option (List Char)) (env : ShellEnv) : Option Nat :=
  match appId with
  | some a => (env.output_list.find? fun so =>
      kiosk_shell_output_has_app_id so.app_ids a).map ShellOutput.out
  | none => none

/-- Spec step 3, from the spec's words: "the bound output of the window's
root ancestor (obtained by walking the parent chain)". -/
def specRootOutput (output : Option Nat) (parent : Option Chain) : Option Nat :=
  match parent with
  | none => output
  | some c => c.rootOut

/-- The specification's priority chain, written from the spec's words as a
first-match-wins cascade of the five candidates. -/
def specBestOutput (appId : Option (List Char)) (output : Option Nat)
    (parent : Option Chain) (env : ShellEnv) : Option Nat :=
  (((output.or (specAffinityOutput appId env)).or
      (specRootOutput output parent)).or env.focused_output).or env.default_output

/-! ## Desktop-surface commands and window placement -/

/-- Commands the shell issues back to the compositor / libweston-desktop:
`weston_desktop_surface_set_fullscreen`, `..._set_maximized`,
`..._set_size`, and `weston_view_activate` for a seat. -/
inductive ShellCmd where
  | fullscreenFlag (b : Bool)
  | maximizedFlag (b : Bool)
  | size (w h : Nat)
  | activate (seat : Nat)
deriving DecidableEq, Repr

/-- The mutable placement-relevant state of a `kiosk_shell_surface`: its
app id, bound output, parent link (with the parent's own frozen chain),
and the fullscreen/maximized flags last sent to the desktop surface. -/
structure SurfState where
  appId : Option (List Char)
  output : Option Nat
  parent : Option Chain
  fullscreen : Bool
  maximized : Bool
deriving DecidableEq, Repr

/-- Placement as the spec describes it, derived from the desktop-surface
flags (the fullscreen flag dominates). -/
inductive Placement where
  | Normal
  | Maximized
  | Fullscreen
deriving DecidableEq, Repr

/-- The placement state of a window. -/
def SurfState.placement (w : SurfState) : Placement :=
  if w.fullscreen then Placement.Fullscreen
  else if w.maximized then Placement.Maximized
  else Placement.Normal

/-- Translation of `kiosk_shell_surface_set_fullscreen`: when no explicit
output is supplied the best output is computed; the output is bound
(`kiosk_shell_surface_set_output`), the fullscreen flag is set, and when an
output is present a size command with the output's dimensions is issued. -/
def kiosk_shell_surface_set_fullscreen (w : SurfState) (env : ShellEnv)
    (out : Option Nat) : SurfState × List ShellCmd :=
  let o := match out with
    | some o => some o
    | none => kiosk_shell_surface_find_best_output w.appId w.output w.parent env
  ({ w with output := o, fullscreen := true },
   ShellCmd.fullscreenFlag true ::
     (match o with
      | some oid => [ShellCmd.size (env.dims oid).1 (env.dims oid).2]
      | none => []))

/-- Translation of `kiosk_shell_surface_set_maximized`: computes the best
output, binds it, sets the maximized flag and sizes to the output. -/
def kiosk_shell_surface_set_maximized (w : SurfState) (env : ShellEnv) :
    SurfState × List ShellCmd :=
  let o := kiosk_shell_surface_find_best_output w.appId w.output w.parent env
  ({ w with output := o, maximized := true },
   ShellCmd.maximizedFlag true ::
     (match o with
      | some oid => [ShellCmd.size (env.dims oid).1 (env.dims oid).2]
      | none => []))

/-- Translation of `kiosk_shell_surface_set_normal`: binds the best output
only when none is bound, clears both flags, and sizes to (0,0). -/
def kiosk_shell_surface_set_normal (w : SurfState) (env : ShellEnv) :
    SurfState × List ShellCmd :=
  let w1 := if w.output.isNone then
      { w with output :=
          kiosk_shell_surface_find_best_output w.appId w.output w.parent env }
    else w
  ({ w1 with fullscreen := false, maximized := false },
   [ShellCmd.fullscreenFlag false, ShellCmd.maximizedFlag false, ShellCmd.size 0 0])

/-- Translation of `kiosk_shell_surface_set_parent`: stores the new parent;
a non-null parent clears the bound output and transitions to normal, a null
parent re-fullscreens on the current output. -/
def kiosk_shell_surface_set_parent (w : SurfState) (env : ShellEnv)
    (parent : Option Chain) : SurfState × List ShellCmd :=
  let w1 := { w with parent := parent }
  match parent with
  | some _ => kiosk_shell_surface_set_normal { w1 with output := none } env
  | none => kiosk_shell_surface_set_fullscreen w1 env w1.output

/-- Translation of `desktop_surface_fullscreen_requested`: windows without
a parent, and any window whose request has `fullscreen = true`, are set
fullscreen (on the requested output when given); only a child window
requesting `fullscreen = false` is set normal. -/
def desktop_surface_fullscreen_requested (w : SurfState) (env : ShellEnv)
    (fullscreen : Bool) (out : Option Nat) : SurfState × List ShellCmd :=
  if w.parent.isNone || fullscreen then
    kiosk_shell_surface_set_fullscreen w env out
  else
    kiosk_shell_surface_set_normal w env

/-- Translation of `desktop_surface_maximized_requested`: windows without a
parent are re-fullscreened; a child window is set maximized when the
request flag is true and normal otherwise. -/
def desktop_surface_maximized_requested (w : SurfState) (env : ShellEnv)
    (maximized : Bool) : SurfState × List ShellCmd :=
  if w.parent.isNone then kiosk_shell_surface_set_fullscreen w env none
  else if maximized then kiosk_shell_surface_set_maximized w env
  else kiosk_shell_surface_set_normal w env

/-- `kiosk_shell_surface_create` (successful allocation): a zero-initialized
side record — no parent, no output, flags clear. -/
def kiosk_shell_surface_create (appId : Option (List Char)) : SurfState :=
  { appId := appId, output := none, parent := none,
    fullscreen := false, maximized := false }

/-- Translation of `desktop_surface_added` when side-record creation
succeeds: set the new surface fullscreen with no explicit output, then
activate its view on every seat in the compositor's seat list. -/
def desktop_surface_added (appId : Option (List Char)) (env : ShellEnv)
    (seat_list : List Nat) : SurfState × List ShellCmd :=
  let r := kiosk_shell_surface_set_fullscreen (kiosk_shell_surface_create appId) env none
  (r.1, r.2 ++ seat_list.map ShellCmd.activate)

/-- The placement-changing events a window can receive from the desktop
API after creation. -/
inductive SurfEvent where
  | set_parent_event (p : Option Chain)
  | fullscreen_request (flag : Bool) (out : Option Nat)
  | maximize_request (flag : Bool)
deriving DecidableEq, Repr

/-- Dispatch of one desktop-API event to the handlers above (state part). -/
def applySurfEvent (env : ShellEnv) (w : SurfState) : SurfEvent → SurfState
  | SurfEvent.set_parent_event p => (kiosk_shell_surface_set_parent w env p).1
  | SurfEvent.fullscreen_request flag out =>
      (desktop_surface_fullscreen_requested w env flag out).1
  | SurfEvent.maximize_request flag =>
      (desktop_surface_maximized_requested w env flag).1

/-- A window's state after a sequence of desktop-API events. -/
def runSurfEvents (env : ShellEnv) (w : SurfState) (es : List SurfEvent) : SurfState :=
  es.foldl (applySurfEvent env) w

/-- A minimal concrete environment: no outputs registered, nothing focused,
no default output. -/
def emptyEnv : ShellEnv :=
  { output_list := [], focused_output := none, default_output := none,
    dims := fun _ => (0, 0) }

/-- A concrete child window: parent bound to a root record, normal
placement, no output. -/
def childWindow : SurfState :=
  { appId := none, output := none, parent := some (Chain.root 1 none),
    fullscreen := false, maximized := false }

/-! ## Seat focus tracking (kiosk_shell_seat_handle_keyboard_focus) -/

/-- Activation commands the focus handler issues:
`weston_desktop_surface_set_activated(..., true/false)` on a window. -/
inductive FocusCmd where
  | activate (w : Nat)
  | deactivate (w : Nat)
deriving DecidableEq, Repr

/-- State of the focus tracker: per seat the recorded `focused_surface`
(a main-surface id, NULL when the seat lost focus), and every window side
record's `focus_count`. -/
structure FocusState where
  seats : List (Option Nat)
  counts : Nat → Int

/-- Pointwise update of the focus-count table. -/
def updCount (f : Nat → Int) (w : Nat) (v : Int) : Nat → Int :=
  fun x => if x = w then v else f x

/-- First half of the focus handler: when the seat's previous
`focused_surface` exists and resolves to a side record
(`get_kiosk_shell_surface`), decrement its `focus_count` unconditionally;
when the decremented count reaches zero, issue a deactivate command. -/
def focusDecrement (resolve : Nat → Option Nat) (counts : Nat → Int)
    (prev : Option Nat) : (Nat → Int) × List FocusCmd :=
  match prev.bind resolve with
  | some w => (updCount counts w (counts w - 1),
      if counts w - 1 = 0 then [FocusCmd.deactivate w] else [])
  | none => (counts, [])

/-- Second half of the focus handler: when the newly recorded focus exists
and resolves to a side record, increment its `focus_count`; when the count
was zero before the increment, issue an activate command. -/
def focusIncrement (resolve : Nat → Option Nat) (counts : Nat → Int)
    (focus : Option Nat) : (Nat → Int) × List FocusCmd :=
  match focus.bind resolve with
  | some w => (updCount counts w (counts w + 1),
      if counts w = 0 then [FocusCmd.activate w] else [])
  | none => (counts, [])

/-- Translation of `kiosk_shell_seat_handle_keyboard_focus`.  `resolve` is
`get_kiosk_shell_surface`; `focus` is
`weston_surface_get_main_surface(keyboard->focus)`.  The handler
decrements the previous window's count, records the new focus on the
seat, and increments the new window's count, issuing deactivate/activate
commands at the zero crossings.  A seat index outside the tracked list is
a no-op (the listener only fires for registered seats). -/
def kiosk_shell_seat_handle_keyboard_focus (resolve : Nat → Option Nat)
    (st : FocusState) (seat : Nat) (focus : Option Nat) :
    FocusState × List FocusCmd :=
  match st.seats.get? seat with
  | none => (st, [])
  | some prev =>
    let d := focusDecrement resolve st.counts prev
    let u := focusIncrement resolve d.1 focus
    ({ seats := st.seats.set seat focus, counts := u.1 }, d.2 ++ u.2)

/-- The number of seats whose currently recorded focused surface resolves
to window `w`. -/
def seatFocusCount (resolve : Nat → Option Nat) (seats : List (Option Nat))
    (w : Nat) : Int :=
  (seats.countP fun s => s.bind resolve == some w : Nat)

/-- Initial tracker state: `n` seats, none focused, all counts zero. -/
def initFocusState (n : Nat) : FocusState :=
  { seats := List.replicate n none, counts := fun _ => 0 }

/-- The tracker state after a sequence of keyboard-focus-changed events,
each given as (seat index, new main surface or NULL). -/
def runFocusEvents (resolve : Nat → Option Nat) (n : Nat)
    (events : List (Nat × Option Nat)) : FocusState :=
  events.foldl
    (fun st e => (kiosk_shell_seat_handle_keyboard_focus resolve st e.1 e.2).1)
    (initFocusState n)

/-- A concrete tracker state: one seat focused on surface 0, window 0 at
focus_count 1. -/
def witnessFocusState : FocusState :=
  { seats := [some 0], counts := fun x => if x = 0 then 1 else 0 }

/-! ## Focus successor (find_focus_successor) -/

/-- A view in the compositor's layer list: its identity, mapped state, and
the window side record of its surface (`get_kiosk_shell_surface`, NULL for
surfaces without one). -/
structure ViewRec where
  vid : Nat
  mapped : Bool
  record : Option Chain
deriving DecidableEq, Repr

/-- The loop of `find_focus_successor`: walk the layer's view list keeping
the first eligible view as `top_view`; skip unmapped views, the removed
window's own view and views without a side record; return immediately a
view whose root ancestor is the removed window's root ancestor, and the
fallback once the list is exhausted. -/
def find_focus_successor_go (removedVid rootId : Nat) :
    List ViewRec → Option ViewRec → Option ViewRec
  | [], top => top
  | v :: rest, top =>
    if v.mapped = false ∨ v.vid = removedVid then
      find_focus_successor_go removedVid rootId rest top
    else
      match v.record with
      | none => find_focus_successor_go removedVid rootId rest top
      | some c =>
        let top' := match top with | none => some v | some t => some t
        if c.rootId = rootId then some v
        else find_focus_successor_go removedVid rootId rest top'

/-- Translation of `find_focus_successor`: `removed` is the side record of
the window being removed (whose root ancestor is computed by
`kiosk_shell_surface_get_parent_root`) and `removedVid` its view. -/
def find_focus_successor (views : List ViewRec) (removedVid : Nat)
    (removed : Chain) : Option ViewRec :=
  find_focus_successor_go removedVid removed.rootId views none

/-- From the spec's words: the views eligible to receive focus — mapped,
not the removed window's own view, and owning a side record. -/
def specEligible (views : List ViewRec) (removedVid : Nat) : List ViewRec :=
  views.filter fun v => v.mapped && v.vid != removedVid && v.record.isSome

/-- Whether a view's root ancestor is the given root. -/
def specRootMatches (rootId : Nat) (v : ViewRec) : Bool :=
  match v.record with
  | some c => c.rootId == rootId
  | none => false

/-- From the spec's words: the first eligible view whose root ancestor
equals the removed window's root ancestor, otherwise the first eligible
view, otherwise none. -/
def specSuccessor (views : List ViewRec) (removedVid rootId : Nat) :
    Option ViewRec :=
  match (specEligible views removedVid).find? (specRootMatches rootId) with
  | some v => some v
  | none => (specEligible views removedVid).head?

/-! ## Destruction order (kiosk_shell_surface_destroy) -/

/-- The externally observable actions `kiosk_shell_surface_destroy`
performs. -/
inductive DestroyAction where
  | emit_destroy_signal
  | clear_user_data
  | clear_desktop_surface_field
  | unlink_view
  | destroy_view
  | remove_output_destroy_listener
  | remove_parent_destroy_listener
  | free_record
deriving DecidableEq, Repr

/-- Translation of `kiosk_shell_surface_destroy` as the ordered sequence of
actions its body performs: emit the window's destroy signal, null the
desktop-surface → side-record association (`set_user_data(..., NULL)`),
clear the `desktop_surface` field, unlink and destroy the view, remove the
output/parent destroy listeners when registered, and free the record. -/
def kiosk_shell_surface_destroy_trace (hasOutputListener hasParentListener : Bool) :
    List DestroyAction :=
  [DestroyAction.emit_destroy_signal,
   DestroyAction.clear_user_data,
   DestroyAction.clear_desktop_surface_field,
   DestroyAction.unlink_view,
   DestroyAction.destroy_view] ++
  (if hasOutputListener then [DestroyAction.remove_output_destroy_listener] else []) ++
  (if hasParentListener then [DestroyAction.remove_parent_destroy_listener] else []) ++
  [DestroyAction.free_record]

/-! ## Theorems -/

/--
C1: `find_best_output` evaluates candidates in the strict priority order
(1) the window's already-bound output, (2) the output of the first
registered output whose affinity list contains the window's app id,
(3) the bound output of the window's root ancestor, (4) the output holding
input focus, (5) the default output, (6) none — returning the first match.
-/
theorem find_best_output_priority_order (appId : Option (List Char))
    (output : Option Nat) (parent : Option Chain) (env : ShellEnv) :
    kiosk_shell_surface_find_best_output appId output parent env =
      specBestOutput appId output parent env := by
  cases output with
  | some o => rfl
  | none =>
    cases appId with
    | some a =>
      cases hf : env.output_list.find? (fun so =>
          kiosk_shell_output_has_app_id so.app_ids a) with
      | some so =>
        simp [kiosk_shell_surface_find_best_output, specBestOutput,
          specAffinityOutput, hf, Option.or]
      | none =>
        cases parent with
        | some c =>
          cases hr : c.rootOut with
          | some o =>
            simp [kiosk_shell_surface_find_best_output, specBestOutput,
              specAffinityOutput, specRootOutput, hf, hr, Option.or]
          | none =>
            simp only [kiosk_shell_surface_find_best_output, specBestOutput,
              specAffinityOutput, specRootOutput, hf, hr, Option.or]
            cases env.focused_output <;> cases env.default_output <;> rfl
        | none =>
          simp only [kiosk_shell_surface_find_best_output, specBestOutput,
            specAffinityOutput, specRootOutput, hf, Option.or]
          cases env.focused_output <;> cases env.default_output <;> rfl
    | none =>
      cases parent with
      | some c =>
        cases hr : c.rootOut with
        | some o =>
          simp [kiosk_shell_surface_find_best_output, specBestOutput,
            specAffinityOutput, specRootOutput, hr, Option.or]
        | none =>
          simp only [kiosk_shell_surface_find_best_output, specBestOutput,
            specAffinityOutput, specRootOutput, hr, Option.or]
          cases env.focused_output <;> cases env.default_output <;> rfl
      | none =>
        simp only [kiosk_shell_surface_find_best_output, specBestOutput,
          specAffinityOutput, specRootOutput, Option.or]
        cases env.focused_output <;> cases env.default_output <;> rfl

/--
C2: for every affinity-list string and every non-empty app id, the affinity
match succeeds exactly when the app id occurs in the comma-separated list
as a complete token (bounded by string start or `,` on the left and `,` or
string end on the right); in particular `"vlc,mpv"` matches `"vlc"` and
`"mpv"` but not `"vl"`, `"mpvx"` or `"cvlc"`, and `"foo,bar"` does not
match `"oo"`.
-/
theorem has_app_id_iff_complete_token :
    (∀ s app_id : List Char, app_id ≠ [] →
        (kiosk_shell_output_has_app_id (some s) app_id = true ↔
          specCompleteTokenMatch s app_id)) ∧
    kiosk_shell_output_has_app_id (some ['v','l','c',',','m','p','v'])
      ['v','l','c'] = true ∧
    kiosk_shell_output_has_app_id (some ['v','l','c',',','m','p','v'])
      ['m','p','v'] = true ∧
    kiosk_shell_output_has_app_id (some ['v','l','c',',','m','p','v'])
      ['v','l'] = false ∧
    kiosk_shell_output_has_app_id (some ['v','l','c',',','m','p','v'])
      ['m','p','v','x'] = false ∧
    kiosk_shell_output_has_app_id (some ['v','l','c',',','m','p','v'])
      ['c','v','l','c'] = false ∧
    kiosk_shell_output_has_app_id (some ['f','o','o',',','b','a','r'])
      ['o','o'] = false := by
  refine ⟨?_, by decide, by decide, by decide, by decide, by decide, by decide⟩
  intro s a ha
  unfold kiosk_shell_output_has_app_id specCompleteTokenMatch
  simp only [List.any_eq_true, List.mem_range, Bool.and_eq_true, Bool.or_eq_true,
    decide_eq_true_eq, List.isPrefixOf_iff_prefix]
  constructor
  · rintro ⟨i, hi, ⟨⟨⟨t, ht⟩, hright⟩, hleft⟩⟩
    have hile : i ≤ s.length := Nat.lt_succ_iff.mp hi
    have hs : s = s.take i ++ a ++ t := by
      rw [List.append_assoc, ht, List.take_append_drop]
    have hlen : (s.take i ++ a).length = i + a.length := by
      simp [List.length_take, Nat.min_eq_left hile]
    have hgr : s[i + a.length]? = t.head? := by
      conv_lhs => rw [hs]
      rw [List.getElem?_append_right hlen.le, hlen, Nat.sub_self]
      exact (List.head?_eq_getElem? t).symm
    refine ⟨s.take i, t, hs, ?_, ?_⟩
    · rcases Nat.eq_zero_or_pos i with h0 | hpos
      · left; simp [h0]
      · right
        have h1 : s[i - 1]? = some ',' := by
          rcases hleft with h0 | hc
          · omega
          · exact hc
        rw [List.getLast?_eq_getElem?, List.length_take, Nat.min_eq_left hile,
          List.getElem?_take]
        simp [Nat.sub_lt hpos Nat.one_pos, h1]
    · rcases hright with hc | hn
      · exact Or.inr (hgr.symm.trans hc)
      · exact Or.inl (List.head?_eq_none_iff.mp (hgr.symm.trans hn))
  · rintro ⟨pre, post, hs, hl, hr⟩
    have hget : s[pre.length + a.length]? = post.head? := by
      conv_lhs => rw [hs]
      rw [List.getElem?_append_right (by simp)]
      simp [List.head?_eq_getElem?]
    refine ⟨pre.length, ?_, ⟨⟨⟨post, ?_⟩, ?_⟩, ?_⟩⟩
    · rw [hs]; simp [List.length_append]; omega
    · rw [hs, List.append_assoc, List.drop_left]
    · rcases hr with h | h
      · right; rw [hget, h]; rfl
      · left; rw [hget]; exact h
    · rcases hl with h | h
      · left; simp [h]
      · right
        have hpos : 0 < pre.length := by
          rcases pre with _ | ⟨x, xs⟩
          · simp at h
          · simp
        conv_lhs => rw [hs]
        rw [@List.getElem?_append_left _ (pre ++ a) post _
            (by simp [List.length_append]; omega),
          @List.getElem?_append_left _ pre a _ (by omega),
          ← List.getLast?_eq_getElem?]
        exact h

/--
Witness for C2: instantiating the equivalence at list `"vlc,mpv"` and app
id `"vlc"` produces the complete-token decomposition.
-/
theorem has_app_id_iff_complete_token_witness :
    specCompleteTokenMatch ['v','l','c',',','m','p','v'] ['v','l','c'] :=
  (has_app_id_iff_complete_token.1 ['v','l','c',',','m','p','v'] ['v','l','c']
    (by decide)).mp (by decide)

/--
C3 counterexample: the invariant "a window with a non-null parent is never
in Fullscreen placement" is not preserved by a fullscreen request with
argument true.  Starting from a freshly added window, setting a parent and
then receiving `fullscreen_requested(true)` yields a reachable state whose
parent is non-null and whose placement is Fullscreen.
-/
theorem child_fullscreen_after_true_request :
    (runSurfEvents emptyEnv (desktop_surface_added none emptyEnv []).1
        [SurfEvent.set_parent_event (some (Chain.root 1 none)),
         SurfEvent.fullscreen_request true none]).parent ≠ none ∧
    (runSurfEvents emptyEnv (desktop_surface_added none emptyEnv []).1
        [SurfEvent.set_parent_event (some (Chain.root 1 none)),
         SurfEvent.fullscreen_request true none]).placement =
      Placement.Fullscreen := by decide

/--
C3 amended: a window with a non-null parent is never put in Fullscreen
placement by any desktop-API operation other than a fullscreen request
with argument true; every other event (set_parent, fullscreen request
with argument false, maximize requests with either argument) preserves
the invariant.
-/
theorem parent_invariant_preserved_without_true_fullscreen_request
    (w : SurfState) (env : ShellEnv) (e : SurfEvent)
    (hw : w.parent ≠ none → w.placement ≠ Placement.Fullscreen)
    (he : ∀ out, e ≠ SurfEvent.fullscreen_request true out) :
    (applySurfEvent env w e).parent ≠ none →
      (applySurfEvent env w e).placement ≠ Placement.Fullscreen := by
  have hwf : w.parent ≠ none → w.fullscreen = false := by
    intro hp
    have := hw hp
    by_contra hf
    simp only [Bool.not_eq_false] at hf
    simp [SurfState.placement, hf] at this
  cases e with
  | set_parent_event p =>
    cases p with
    | some c =>
      simp [applySurfEvent, kiosk_shell_surface_set_parent,
        kiosk_shell_surface_set_normal, SurfState.placement]
    | none =>
      simp [applySurfEvent, kiosk_shell_surface_set_parent,
        kiosk_shell_surface_set_fullscreen, SurfState.placement]
  | fullscreen_request flag out =>
    cases flag with
    | true => exact absurd rfl (he out)
    | false =>
      cases hp : w.parent with
      | none =>
        simp [applySurfEvent, desktop_surface_fullscreen_requested, hp,
          kiosk_shell_surface_set_fullscreen, SurfState.placement]
      | some c =>
        simp [applySurfEvent, desktop_surface_fullscreen_requested, hp,
          kiosk_shell_surface_set_normal, SurfState.placement]
  | maximize_request flag =>
    cases hp : w.parent with
    | none =>
      simp [applySurfEvent, desktop_surface_maximized_requested, hp,
        kiosk_shell_surface_set_fullscreen, SurfState.placement]
    | some c =>
      have hf : w.fullscreen = false := hwf (by simp [hp])
      cases flag with
      | true =>
        simp [applySurfEvent, desktop_surface_maximized_requested, hp,
          kiosk_shell_surface_set_maximized, SurfState.placement, hf]
      | false =>
        simp [applySurfEvent, desktop_surface_maximized_requested, hp,
          kiosk_shell_surface_set_normal, SurfState.placement]

/--
Witness for the amended C3: the preserved invariant instantiated at a
concrete child window receiving a maximize request.
-/
theorem parent_invariant_preserved_witness :
    (applySurfEvent emptyEnv childWindow (SurfEvent.maximize_request true)).placement =
        Placement.Maximized ∧
    ((applySurfEvent emptyEnv childWindow (SurfEvent.maximize_request true)).parent ≠ none →
      (applySurfEvent emptyEnv childWindow
          (SurfEvent.maximize_request true)).placement ≠ Placement.Fullscreen) :=
  ⟨by decide,
   parent_invariant_preserved_without_true_fullscreen_request childWindow emptyEnv
     (SurfEvent.maximize_request true) (by decide) (by intro out; simp)⟩

/--
C4 counterexample: on a window with a non-null parent, a maximize request
with argument true yields Maximized placement and a fullscreen request
with argument true yields Fullscreen placement — neither is coerced to
Normal.
-/
theorem child_true_requests_not_normal :
    childWindow.parent ≠ none ∧
    ((desktop_surface_maximized_requested childWindow emptyEnv true).1).placement =
      Placement.Maximized ∧
    ((desktop_surface_fullscreen_requested childWindow emptyEnv true none).1).placement =
      Placement.Fullscreen := by decide

/--
C4 amended: for every window with a non-null parent, a maximize or
fullscreen request with argument false is coerced to Normal placement;
with argument true, a fullscreen request is granted Fullscreen, and a
maximize request sets the maximized state — yielding Maximized placement
unless the window was already fullscreen (then it remains Fullscreen,
since `set_maximized` leaves the fullscreen flag untouched).
-/
theorem child_request_placements (w : SurfState) (env : ShellEnv)
    (out : Option Nat) (hp : w.parent ≠ none) :
    ((desktop_surface_maximized_requested w env false).1).placement =
        Placement.Normal ∧
    ((desktop_surface_fullscreen_requested w env false out).1).placement =
        Placement.Normal ∧
    ((desktop_surface_maximized_requested w env true).1).placement =
        (if w.fullscreen then Placement.Fullscreen else Placement.Maximized) ∧
    ((desktop_surface_fullscreen_requested w env true out).1).placement =
        Placement.Fullscreen := by
  obtain ⟨p, hp'⟩ := Option.ne_none_iff_exists'.mp hp
  by_cases hf : w.fullscreen <;>
    simp [desktop_surface_maximized_requested, desktop_surface_fullscreen_requested,
      kiosk_shell_surface_set_normal, kiosk_shell_surface_set_maximized,
      kiosk_shell_surface_set_fullscreen, SurfState.placement, hp', hf]

/--
Witness for the amended C4: the four placements at a concrete child
window.
-/
theorem child_request_placements_witness :
    ((desktop_surface_maximized_requested childWindow emptyEnv false).1).placement =
        Placement.Normal ∧
    ((desktop_surface_fullscreen_requested childWindow emptyEnv false none).1).placement =
        Placement.Normal ∧
    ((desktop_surface_maximized_requested childWindow emptyEnv true).1).placement =
        (if childWindow.fullscreen then Placement.Fullscreen else Placement.Maximized) ∧
    ((desktop_surface_fullscreen_requested childWindow emptyEnv true none).1).placement =
        Placement.Fullscreen :=
  child_request_placements childWindow emptyEnv none (by decide)

/--
C7: `set_normal` is idempotent — calling it twice in immediate succession
produces the same final state (bound output, placement flags) and issues
the same commands (including the (0,0) size command) as calling it once.
-/
theorem set_normal_idempotent (w : SurfState) (env : ShellEnv) :
    kiosk_shell_surface_set_normal (kiosk_shell_surface_set_normal w env).1 env =
      kiosk_shell_surface_set_normal w env := by
  unfold kiosk_shell_surface_set_normal
  cases h : w.output with
  | some o => simp [h]
  | none =>
    cases hb : kiosk_shell_surface_find_best_output w.appId none w.parent env with
    | some o => simp [h, hb]
    | none => simp [h, hb]

/--
C10: for a successfully created surface, `desktop_surface_added` sets the
surface fullscreen bound to the output chosen by the best-output policy
(sizing it to that output when one exists) and then activates the new
surface's view on every seat in the compositor's seat list.
-/
theorem added_sets_fullscreen_then_activates_all_seats
    (appId : Option (List Char)) (env : ShellEnv) (seat_list : List Nat) :
    ((desktop_surface_added appId env seat_list).1).fullscreen = true ∧
    ((desktop_surface_added appId env seat_list).1).output =
      kiosk_shell_surface_find_best_output appId none none env ∧
    (desktop_surface_added appId env seat_list).2 =
      ShellCmd.fullscreenFlag true ::
        (match kiosk_shell_surface_find_best_output appId none none env with
         | some o => [ShellCmd.size (env.dims o).1 (env.dims o).2]
         | none => []) ++ seat_list.map ShellCmd.activate := by
  cases hb : kiosk_shell_surface_find_best_output appId none none env with
  | some o =>
    simp [desktop_surface_added, kiosk_shell_surface_set_fullscreen,
      kiosk_shell_surface_create, hb]
  | none =>
    simp [desktop_surface_added, kiosk_shell_surface_set_fullscreen,
      kiosk_shell_surface_create, hb]

/-- The decrement phase changes only the previous window's count, by
exactly one. -/
theorem focusDecrement_counts (resolve : Nat → Option Nat) (counts : Nat → Int)
    (prev : Option Nat) (w : Nat) :
    (focusDecrement resolve counts prev).1 w =
      counts w - (if prev.bind resolve == some w then 1 else 0) := by
  unfold focusDecrement
  cases h : prev.bind resolve with
  | none => simp
  | some w0 =>
    by_cases h0 : w = w0
    · subst h0; simp [updCount]
    · simp [updCount, h0, Ne.symm h0]

/-- The increment phase changes only the new window's count, by exactly
one. -/
theorem focusIncrement_counts (resolve : Nat → Option Nat) (counts : Nat → Int)
    (focus : Option Nat) (w : Nat) :
    (focusIncrement resolve counts focus).1 w =
      counts w + (if focus.bind resolve == some w then 1 else 0) := by
  unfold focusIncrement
  cases h : focus.bind resolve with
  | none => simp
  | some w0 =>
    by_cases h0 : w = w0
    · subst h0; simp [updCount]
    · simp [updCount, h0, Ne.symm h0]

/-- Replacing one list entry shifts a `countP` by the entry's old and new
contributions. -/
theorem countP_set_eq (l : List (Option Nat)) (i : Nat) (prev v : Option Nat)
    (p : Option Nat → Bool) (h : l.get? i = some prev) :
    (l.set i v).countP p + (if p prev then 1 else 0) =
      l.countP p + (if p v then 1 else 0) := by
  induction l generalizing i with
  | nil => simp at h
  | cons a l ih =>
    cases i with
    | zero =>
      simp only [List.get?] at h
      injection h with h
      subst h
      simp [List.set, List.countP_cons]
      omega
    | succ i =>
      simp only [List.get?] at h
      have := ih i h
      simp [List.set, List.countP_cons]
      omega

/-- One keyboard-focus-changed event preserves the focus-count
invariant. -/
theorem handle_keyboard_focus_preserves_invariant (resolve : Nat → Option Nat)
    (st : FocusState) (seat : Nat) (focus : Option Nat)
    (hInv : ∀ w, st.counts w = seatFocusCount resolve st.seats w) (w : Nat) :
    ((kiosk_shell_seat_handle_keyboard_focus resolve st seat focus).1).counts w =
      seatFocusCount resolve
        ((kiosk_shell_seat_handle_keyboard_focus resolve st seat focus).1).seats w := by
  unfold kiosk_shell_seat_handle_keyboard_focus
  cases hg : st.seats.get? seat with
  | none => exact hInv w
  | some prev =>
    simp only [focusIncrement_counts, focusDecrement_counts]
    have hset := countP_set_eq st.seats seat prev focus
      (fun s => s.bind resolve == some w) hg
    have hinv := hInv w
    unfold seatFocusCount at hinv ⊢
    simp only [] at hset ⊢
    split_ifs at hset ⊢ <;> omega

/--
C5: after every finite sequence of keyboard-focus-changed events across
any number of seats, every window's `focus_count` equals the number of
seats whose currently recorded focused surface resolves to that window.
-/
theorem focus_count_matches_seats (resolve : Nat → Option Nat) (n : Nat)
    (events : List (Nat × Option Nat)) (w : Nat) :
    (runFocusEvents resolve n events).counts w =
      seatFocusCount resolve (runFocusEvents resolve n events).seats w := by
  have hrun : ∀ (es : List (Nat × Option Nat)) (st : FocusState),
      (∀ v, st.counts v = seatFocusCount resolve st.seats v) →
      ∀ v, (es.foldl (fun st e =>
            (kiosk_shell_seat_handle_keyboard_focus resolve st e.1 e.2).1) st).counts v =
          seatFocusCount resolve (es.foldl (fun st e =>
            (kiosk_shell_seat_handle_keyboard_focus resolve st e.1 e.2).1) st).seats v := by
    intro es
    induction es with
    | nil => intro st h; exact h
    | cons e es ih =>
      intro st h
      exact ih _ (handle_keyboard_focus_preserves_invariant resolve st e.1 e.2 h)
  refine hrun events (initFocusState n) (fun v => ?_) w
  have hz : (List.replicate n (none : Option Nat)).countP
      (fun s => s.bind resolve == some v) = 0 := by
    refine List.countP_eq_zero.mpr ?_
    intro a ha
    rw [List.eq_of_mem_replicate ha]
    simp
  simp [initFocusState, seatFocusCount, hz]

/--
C6 counterexample: a focus-changed event whose new focus resolves to the
same window as the seat's previous focus does issue a deactivate command
for that window (immediately followed by an activate): after seat 0
focuses surface 0 (window 0, focus_count 1), re-delivering focus 0 to seat
0 produces [deactivate 0, activate 0].
-/
theorem same_window_refocus_issues_deactivate :
    ((runFocusEvents (fun s => some s) 1 [(0, some 0)]).seats.get? 0 =
        some (some 0)) ∧
    ((runFocusEvents (fun s => some s) 1 [(0, some 0)]).counts 0 = 1) ∧
    ((kiosk_shell_seat_handle_keyboard_focus (fun s => some s)
        (runFocusEvents (fun s => some s) 1 [(0, some 0)]) 0 (some 0)).2 =
      [FocusCmd.deactivate 0, FocusCmd.activate 0]) := by
  decide

/--
C6 amended: on a keyboard-focus-changed event for a seat whose previous
focused window exists, that window's focus_count is decremented
unconditionally — even when the new focus resolves to the same window —
and a deactivate command is issued exactly when the decrement reaches
zero; consequently a same-window focus change at focus_count 1 issues a
deactivate for the window immediately followed by an activate.
-/
theorem focus_decrement_unconditional (resolve : Nat → Option Nat)
    (st : FocusState) (seat : Nat) (focus : Option Nat) (prev : Option Nat)
    (w : Nat) (hg : st.seats.get? seat = some prev)
    (hw : prev.bind resolve = some w) :
    ((kiosk_shell_seat_handle_keyboard_focus resolve st seat focus).1).counts w =
      st.counts w - 1 + (if focus.bind resolve == some w then 1 else 0) ∧
    (FocusCmd.deactivate w ∈
        (kiosk_shell_seat_handle_keyboard_focus resolve st seat focus).2 ↔
      st.counts w - 1 = 0) ∧
    (focus.bind resolve = some w → st.counts w = 1 →
      (kiosk_shell_seat_handle_keyboard_focus resolve st seat focus).2 =
        [FocusCmd.deactivate w, FocusCmd.activate w]) := by
  unfold kiosk_shell_seat_handle_keyboard_focus
  simp only [hg]
  refine ⟨?_, ?_, ?_⟩
  · rw [focusIncrement_counts, focusDecrement_counts, hw]
    simp
  · unfold focusDecrement focusIncrement
    rw [hw]
    cases hf : focus.bind resolve with
    | none =>
      simp only [hf]
      by_cases h : st.counts w - 1 = 0 <;> simp [h]
    | some w1 =>
      simp only [hf]
      by_cases h : st.counts w - 1 = 0 <;>
        by_cases h2 : (updCount st.counts w (st.counts w - 1)) w1 = 0 <;>
          simp [h, h2]
  · intro hf hc
    unfold focusDecrement focusIncrement
    rw [hw]
    simp only [hf]
    simp [updCount, hc]

/--
Witness for the amended C6: a same-window refocus at focus_count 1 issues
deactivate then activate.
-/
theorem focus_decrement_unconditional_witness :
    (kiosk_shell_seat_handle_keyboard_focus (fun s => some s)
        witnessFocusState 0 (some 0)).2 =
      [FocusCmd.deactivate 0, FocusCmd.activate 0] :=
  (focus_decrement_unconditional (fun s => some s) witnessFocusState 0 (some 0)
      (some 0) 0 rfl rfl).2.2 rfl rfl

/-- Unfolding `specEligible` one view at a time. -/
theorem specEligible_cons (v : ViewRec) (rest : List ViewRec) (removedVid : Nat) :
    specEligible (v :: rest) removedVid =
      if v.mapped && v.vid != removedVid && v.record.isSome then
        v :: specEligible rest removedVid
      else specEligible rest removedVid := by
  simp [specEligible, List.filter_cons]

/-- Once a fallback is held, the loop returns the first root-matching
eligible view or else that fallback. -/
theorem go_with_fallback (removedVid rootId : Nat) (views : List ViewRec)
    (t : ViewRec) :
    find_focus_successor_go removedVid rootId views (some t) =
      match (specEligible views removedVid).find? (specRootMatches rootId) with
      | some v => some v
      | none => some t := by
  induction views with
  | nil => simp [find_focus_successor_go, specEligible]
  | cons v rest ih =>
    simp only [find_focus_successor_go, specEligible_cons]
    by_cases hm : v.mapped
    · by_cases hv : v.vid = removedVid
      · simp [hm, hv, ih]
      · cases hr : v.record with
        | none => simp [hm, hv, hr, ih]
        | some c =>
          by_cases hroot : c.rootId = rootId
          · simp [hm, hv, hr, hroot, List.find?_cons, specRootMatches]
          · simp [hm, hv, hr, hroot, ih, List.find?_cons, specRootMatches]
    · simp [hm, ih]

/-- The loop started with no fallback computes the specification's
successor. -/
theorem go_no_fallback (removedVid rootId : Nat) (views : List ViewRec) :
    find_focus_successor_go removedVid rootId views none =
      specSuccessor views removedVid rootId := by
  induction views with
  | nil => simp [find_focus_successor_go, specSuccessor, specEligible]
  | cons v rest ih =>
    simp only [find_focus_successor_go, specSuccessor, specEligible_cons]
    by_cases hm : v.mapped
    · by_cases hv : v.vid = removedVid
      · simp [hm, hv, ih, specSuccessor]
      · cases hr : v.record with
        | none => simp [hm, hv, hr, ih, specSuccessor]
        | some c =>
          by_cases hroot : c.rootId = rootId
          · simp [hm, hv, hr, hroot, List.find?_cons, specRootMatches]
          · simp only [hm, hv, hr, hroot]
            simp only [go_with_fallback removedVid rootId rest v]
            cases hfind : (specEligible rest removedVid).find?
                (specRootMatches rootId) <;>
              simp [hfind, hv, hr, hroot, List.find?_cons, specRootMatches]
    · simp [hm, ih, specSuccessor]

/--
C9: `find_focus_successor` scans the view list in order, skipping unmapped
views, the removed window's own view and views without a side record; it
returns the first eligible view whose root ancestor equals the removed
window's root ancestor, otherwise the first eligible view seen (the
fallback), and none exactly when no eligible view exists.
-/
theorem find_focus_successor_spec (views : List ViewRec) (removedVid : Nat)
    (removed : Chain) :
    find_focus_successor views removedVid removed =
      specSuccessor views removedVid removed.rootId :=
  go_no_fallback removedVid removed.rootId views

/--
C8 counterexample: in `kiosk_shell_surface_destroy` the destroy signal is
emitted first and the surface → side-record association is nulled only
afterwards — the nulling does not precede the emission.
-/
theorem destroy_clears_association_after_emit_cex :
    DestroyAction.clear_user_data ∈ kiosk_shell_surface_destroy_trace false false ∧
    DestroyAction.emit_destroy_signal ∈ kiosk_shell_surface_destroy_trace false false ∧
    ¬ ((kiosk_shell_surface_destroy_trace false false).indexOf
          DestroyAction.clear_user_data <
        (kiosk_shell_surface_destroy_trace false false).indexOf
          DestroyAction.emit_destroy_signal) := by
  decide

/--
C8 amended: during destruction of a window's side record the destroy
signal is emitted first, and the association between the compositor
surface and the side record is nulled only afterwards (whether or not the
output/parent destroy listeners are registered); a destroy listener
invoked by that emission can therefore still observe the record through
the association.
-/
theorem destroy_emits_signal_before_clearing_association
    (hasOutputListener hasParentListener : Bool) :
    (kiosk_shell_surface_destroy_trace hasOutputListener
          hasParentListener).indexOf DestroyAction.emit_destroy_signal <
      (kiosk_shell_surface_destroy_trace hasOutputListener
          hasParentListener).indexOf DestroyAction.clear_user_data := by
  cases hasOutputListener <;> cases hasParentListener <;> decide

end KioskShell
